import Mathlib

/-!
# Loan-Management ledger: shallow embedding and verification

This file embeds the repayment/interest-accrual logic of the
Loan-Management dashboard (`src/components/ui/loan-details-modal.tsx`,
analytics page `fetchLoanMetrics`) in Lean 4 and proves the spec's
claims about it.

Conventions of the embedding:
* Monetary amounts and rates are rationals (`ℚ`); JavaScript's
  `parseFloat(x.toFixed(2))` is modelled by exact half-up rounding to
  two decimal places (`round2`).
* Calendar dates are civil dates `(year, month, day)` with JS `Date`
  month numbering (0-based); `epochDays`/`epochMs` give the proleptic
  Gregorian day/millisecond count since 1970-01-01 exactly as
  `Date.UTC` does, including day-of-month overflow normalisation.
  All date strings handled by the component are date-only
  (`YYYY-MM-DD`), parsed by `new Date(...)` to UTC midnight, so a
  date's time value is `epochDays * 86400000`.
* The per-loan repayment collection lives in the database; the state of
  one loan is the loan row plus the list of its repayment rows in
  date order (validation keeps recorded dates non-decreasing, so the
  row most recent by date is the last of the list).
-/

set_option maxRecDepth 2000

namespace LoanMgmt

/-- Loan status column values: `"active"`, `"principal paid"`,
`"finished"` in the source. -/
inductive Status where
  | active
  | principalPaid
  | finished
deriving DecidableEq, Repr

/-- Position of a status in the `active → principal_paid → finished`
progression, used to state monotonicity. -/
def Status.rank : Status → Nat
  | .active => 0
  | .principalPaid => 1
  | .finished => 2

/-- A civil (proleptic Gregorian) calendar date, with JS `Date`
numbering: `month` is 0-based (January = 0), `day` is 1-based. -/
structure CivilDate where
  year : Int
  month : Nat
  day : Nat
deriving DecidableEq, Repr

/-- Days since 1970-01-01 of a civil date, as `Date.UTC(y, m, d)`
computes it (Howard Hinnant's `days_from_civil`, extended linearly in
`day` so that day-of-month overflow rolls into the following months,
exactly like JS date normalisation). -/
def epochDays (d : CivilDate) : Int :=
  let m1 : Int := (d.month : Int) + 1
  let y : Int := d.year - (if m1 ≤ 2 then 1 else 0)
  let era : Int := (if 0 ≤ y then y else y - 399) / 400
  let yoe : Int := y - era * 400
  let doy : Int := (153 * (m1 + (if 2 < m1 then -3 else 9)) + 2) / 5 + (d.day : Int) - 1
  let doe : Int := yoe * 365 + yoe / 4 - yoe / 100 + doy
  era * 146097 + doe - 719468

/-- The time value (milliseconds since epoch) of a date-only string
parsed by `new Date(...)`: UTC midnight of the civil date. -/
def epochMs (d : CivilDate) : Int :=
  epochDays d * 86400000

/-- `Math.ceil(Math.abs(t2 - t1) / (1000*60*60*24))`: the day count
used both by `calculateInterest` and by the days-since-last-payment
display. -/
def diffDaysCeil (t1 t2 : Int) : Nat :=
  ((t2 - t1).natAbs + 86399999) / 86400000

/-- JS `endDate.setMonth(endDate.getMonth() + n)`: add `n` months
keeping the day-of-month number (overflow is normalised later by
`epochDays`). -/
def addMonths (d : CivilDate) (n : Nat) : CivilDate :=
  { year := d.year + ((d.month + n) / 12 : Nat)
    month := (d.month + n) % 12
    day := d.day }

/-- `parseFloat(x.toFixed(2))`: round to two decimal places, ties
going to the larger value (the ECMAScript `toFixed` tie rule). -/
def round2 (q : ℚ) : ℚ :=
  (⌊q * 100 + 1/2⌋ : ℚ) / 100

/-- `interestRate / 100 / 365`, the daily interest rate used in every
accrual and projection in the source. -/
def dailyRate (annualRatePercent : ℚ) : ℚ :=
  annualRatePercent / 100 / 365

/-- A row of the `loans` table (the fields the ledger logic reads). -/
structure Loan where
  amount : ℚ
  interest_rate : ℚ
  term_months : Nat
  start_date : CivilDate
  status : Status
deriving DecidableEq, Repr

/-- A row of a per-loan repayment table (the fields the ledger logic
reads and writes). -/
structure Repayment where
  repayment_date : CivilDate
  amount_paid : ℚ
  interest_amount : ℚ
  remaining_balance : ℚ
  payment_method : String
deriving DecidableEq, Repr

/-- The persistent state of one loan: its `loans` row and its
repayment rows in date order (most recent last). -/
structure LoanState where
  loan : Loan
  repayments : List Repayment
deriving DecidableEq, Repr

/-- Total paid so far: `data.reduce((sum, r) => sum + r.amount_paid, 0)`
in `openPaymentModal`. -/
def totalPaid (s : LoanState) : ℚ :=
  (s.repayments.map Repayment.amount_paid).sum

/-- Modelled from the spec: the previous ledger state — "either the
most recent Repayment, or, if none exists, the Loan's origin state
with balance = principal and date = start date".  The origin state for
the empty-history case is provisioned database-side (the per-loan
repayment table and its seed row are created outside `src/`); in
`src/` code the most recent row read back from the table plays this
role. -/
def prevLedgerState (s : LoanState) : ℚ × CivilDate :=
  match s.repayments.getLast? with
  | some r => (r.remaining_balance, r.repayment_date)
  | none => (s.loan.amount, s.loan.start_date)

/-- "Current balance" of a loan: remaining balance of the most recent
repayment, or the principal if none exists (`openPaymentModal` /
`fetchRepayments` / `fetchLoanMetrics` all compute it this way). -/
def currentBalance (s : LoanState) : ℚ :=
  (prevLedgerState s).1

/-- Date of the most recent repayment, or the loan's start date if
none exists (`validatePaymentInput`, date branch). -/
def mostRecentDate (s : LoanState) : CivilDate :=
  (prevLedgerState s).2

/-- `total >= loan.amount` computed in `openPaymentModal`: principal
fully retired by the payments recorded so far. -/
def isPrincipalPaid (s : LoanState) : Bool :=
  s.loan.amount ≤ totalPaid s

/-- Loan term end date: `endDate.setMonth(startDate.getMonth() + term_months)`. -/
def loanEndDate (l : Loan) : CivilDate :=
  addMonths l.start_date l.term_months

/-- `calculateInterest(previousRepayment, currentRepaymentDate,
interestRate)` from the modal, with the surrounding `isPrincipalPaid`
component state passed explicitly: 0 once principal is paid off,
otherwise the previous balance times the daily rate times the
ceiling'd absolute day difference, rounded to two decimals. -/
def calculateInterest (prevBalance : ℚ) (prevDate : CivilDate)
    (currentDate : CivilDate) (interestRate : ℚ)
    (principalPaidOff : Bool) : ℚ :=
  if principalPaidOff then 0
  else
    let diffDays : ℚ := (diffDaysCeil (epochMs prevDate) (epochMs currentDate) : ℚ)
    round2 (prevBalance * dailyRate interestRate * diffDays)

/-- Field-specific amount validation outcomes of `validatePaymentInput`. -/
inductive AmountError where
  | nonPositive
  | exceedsBalance
deriving DecidableEq, Repr

/-- Field-specific date validation outcomes of `validatePaymentInput`. -/
inductive DateError where
  | beforePrevious
  | beyondTerm
deriving DecidableEq, Repr

/-- The two per-field error slots of the payment form
(`validationErrors.amountError` / `.dateError`); submission is blocked
when either is populated. -/
structure ValidationErrors where
  amountError : Option AmountError
  dateError : Option DateError
deriving DecidableEq, Repr

/-- `validatePaymentInput('amount', value)`: an error when the amount
is ≤ 0, else when it exceeds the current remaining balance. -/
def validateAmount (s : LoanState) (amount : ℚ) : Option AmountError :=
  if amount ≤ 0 then some .nonPositive
  else if currentBalance s < amount then some .exceedsBalance
  else none

/-- `validatePaymentInput('date', value)`: an error when the selected
date is before the most recent repayment (or start date if none), else
when it is after `startDate + term_months` months.  JS compares the
`Date` objects by time value. -/
def validateDate (s : LoanState) (d : CivilDate) : Option DateError :=
  if epochMs d < epochMs (mostRecentDate s) then some .beforePrevious
  else if epochMs (loanEndDate s.loan) < epochMs d then some .beyondTerm
  else none

/-- The fields of the payment form read by `handleSubmitPayment`. -/
structure PaymentInput where
  amountPaid : ℚ
  repaymentDate : CivilDate
  paymentMethod : String
deriving DecidableEq, Repr

/-- Result of a successful submission: the new persistent state and
the sequence of status values written by `updateLoanStatus` during the
call (in order). -/
structure PaymentOutcome where
  state : LoanState
  statusWrites : List Status
deriving DecidableEq, Repr

/-- The `interestAmount` computed by `handleSubmitPayment`: interval
interest against the previous ledger state, with the component's
`isPrincipalPaid` flag. -/
def accruedInterest (s : LoanState) (p : PaymentInput) : ℚ :=
  calculateInterest (currentBalance s) (mostRecentDate s) p.repaymentDate
    s.loan.interest_rate (isPrincipalPaid s)

/-- The `newRemainingBalance` computed by `handleSubmitPayment`:
`prev − amount` once principal is paid off (interest stays 0 then),
`prev − amount + interest` before that. -/
def newBalance (s : LoanState) (p : PaymentInput) : ℚ :=
  if isPrincipalPaid s then currentBalance s - p.amountPaid
  else currentBalance s - p.amountPaid + accruedInterest s p

/-- The sequence of `updateLoanStatus` writes issued by
`handleSubmitPayment`: `principal paid` when this payment completes
the principal, then `finished` when the new balance is ≤ 0. -/
def statusWritesOf (s : LoanState) (p : PaymentInput) : List Status :=
  (if isPrincipalPaid s = false ∧ s.loan.amount ≤ totalPaid s + p.amountPaid
    then [Status.principalPaid] else []) ++
  (if newBalance s p ≤ 0 then [Status.finished] else [])

/-- `handleSubmitPayment`: validate both fields (returning the
field-specific errors with nothing persisted on failure); otherwise
compute the interval interest and the new remaining balance, issue the
status writes, and insert the new repayment row with the balance
floored at zero. -/
def recordPayment (s : LoanState) (p : PaymentInput) :
    Except ValidationErrors PaymentOutcome :=
  let aErr := validateAmount s p.amountPaid
  let dErr := validateDate s p.repaymentDate
  if aErr.isSome ∨ dErr.isSome then
    .error ⟨aErr, dErr⟩
  else
    let writes := statusWritesOf s p
    let newRep : Repayment :=
      { repayment_date := p.repaymentDate
        amount_paid := p.amountPaid
        interest_amount := accruedInterest s p
        remaining_balance := max 0 (newBalance s p)
        payment_method := p.paymentMethod }
    .ok { state :=
            { loan := { s.loan with status := writes.getLastD s.loan.status }
              repayments := s.repayments ++ [newRep] }
          statusWrites := writes }

/-- The persistent state after a submission attempt: unchanged when
validation fails (the handler returns before any insert or status
update), the new state otherwise. -/
def applyPayment (s : LoanState) (p : PaymentInput) : LoanState :=
  match recordPayment s p with
  | .ok o => o.state
  | .error _ => s

/-- Status synchronisation performed by `openPaymentModal`: when the
recorded payments already cover the principal and the loan is still
`active`, its status is updated to `principal paid` before the form is
shown. -/
def openModalStatusUpdate (s : LoanState) : LoanState :=
  if isPrincipalPaid s = true ∧ s.loan.status = Status.active then
    { s with loan := { s.loan with status := Status.principalPaid } }
  else s

/-- The full record-payment flow: the payment dialog is opened (which
may synchronise the status) and the form submitted. -/
def submitPaymentFlow (s : LoanState) (p : PaymentInput) :
    Except ValidationErrors PaymentOutcome :=
  recordPayment (openModalStatusUpdate s) p

/-- `handleMarkAsFinished`: set the loan status to `finished`; if the
current balance is positive, also insert a system-generated closing
repayment paying it down to zero with no interest. -/
def markFinished (s : LoanState) (today : CivilDate) : LoanState :=
  let s1 : LoanState :=
    { s with loan := { s.loan with status := Status.finished } }
  if 0 < currentBalance s then
    { s1 with repayments := s1.repayments ++
        [{ repayment_date := today
           amount_paid := currentBalance s
           interest_amount := 0
           remaining_balance := 0
           payment_method := "System" }] }
  else s1

/-- Guard on the mark-as-finished button in `LoanDetailsModal`:
rendered only when `remainingBalance > 0 && remainingBalance < 100 &&
loan.status !== 'finished'`. -/
def showMarkFinished (s : LoanState) : Bool :=
  0 < currentBalance s ∧ currentBalance s < 100 ∧
    s.loan.status ≠ Status.finished

/-- Guard on the record-new-payment button in `LoanDetailsModal`:
rendered only when `loan.status !== 'finished'`. -/
def canRecordPayment (s : LoanState) : Bool :=
  s.loan.status ≠ Status.finished

/-- Projected-interest display computed in `fetchRepayments`: with at
least one repayment, the latest balance times the daily rate times 30,
rounded to two decimals; zero when no repayment exists. -/
def fetchProjectedInterest (s : LoanState) : ℚ :=
  match s.repayments.getLast? with
  | some r => round2 (r.remaining_balance * dailyRate s.loan.interest_rate * 30)
  | none => 0

/-- The four dashboard metrics assembled by `fetchLoanMetrics`. -/
structure Metrics where
  activeLoans : Nat
  interestToBePaid : ℚ
  totalPrincipal : ℚ
  outstandingAmount : ℚ
deriving DecidableEq, Repr

/-- Body of the per-loan loop in `fetchLoanMetrics`: accumulate the
(unrounded) 30-day projection and the current balance, where the
balance is the latest repayment's `remaining_balance` or the loan
amount when no repayment exists. -/
def metricsStep (acc : ℚ × ℚ) (s : LoanState) : ℚ × ℚ :=
  let bal := currentBalance s
  (acc.1 + bal * dailyRate s.loan.interest_rate * 30, acc.2 + bal)

/-- `fetchLoanMetrics` on the analytics page: over the loans with
status `active`, sum the principal amounts, fold the per-loan interest
projections and balances, and report `outstandingAmount` as the summed
balances plus the summed principal. -/
def fetchLoanMetrics (allLoans : List LoanState) : Metrics :=
  let actives := allLoans.filter fun s => decide (s.loan.status = Status.active)
  let totalPrincipal := (actives.map fun s => s.loan.amount).sum
  let acc := actives.foldl metricsStep (0, 0)
  { activeLoans := actives.length
    interestToBePaid := acc.1
    totalPrincipal := totalPrincipal
    outstandingAmount := acc.2 + totalPrincipal }

/-- Written from the words of spec §4.2 (`projectInterest`), for
comparison with the code paths: 0 when principal is paid off,
otherwise the rounded balance × daily rate × window product. -/
def projectInterestSpec (currentBal ratePercent windowDays : ℚ)
    (principalPaidOff : Bool) : ℚ :=
  if principalPaidOff then 0
  else round2 (currentBal * dailyRate ratePercent * windowDays)

/-- Written from the words of spec §4.3, for comparison with
`fetchLoanMetrics`: the total outstanding amount as the sum over
active loans of each loan's current balance. -/
def specOutstandingTotal (allLoans : List LoanState) : ℚ :=
  ((allLoans.filter fun s => decide (s.loan.status = Status.active)).map
    currentBalance).sum

/-- Remaining balance at the end of a repayment chain, starting from
balance `b`: the last recorded balance, or `b` for an empty chain. -/
def lastBal (b : ℚ) : List Repayment → ℚ
  | [] => b
  | r :: rest => lastBal r.remaining_balance rest

/-- The balance-chaining recurrence of spec §3/§8, as a decidable
check: walking the chain with the running previous balance and the
cumulative amount paid before each event, every stored balance equals
`max 0 (prev − paid)` once the principal was covered before the event
and `max 0 (prev − paid + interest)` before that. -/
def chainOk (principal : ℚ) : ℚ → ℚ → List Repayment → Bool
  | _, _, [] => true
  | prevBal, paidBefore, r :: rest =>
      decide (r.remaining_balance =
        if principal ≤ paidBefore then max 0 (prevBal - r.amount_paid)
        else max 0 (prevBal - r.amount_paid + r.interest_amount))
      && chainOk principal r.remaining_balance (paidBefore + r.amount_paid) rest

/-- The balance-chaining invariant of one loan state: its repayment
chain satisfies the recurrence starting from the original principal
with nothing yet paid. -/
def LedgerInv (s : LoanState) : Bool :=
  chainOk s.loan.amount s.loan.amount 0 s.repayments

/-- Reachability invariant tying the status column to the ledger: an
`active` loan's recorded payments do not yet cover the principal
(every path that makes the total reach the principal also writes
`principal paid` or `finished`). -/
def StatusInv (s : LoanState) : Prop :=
  s.loan.status = Status.active → totalPaid s < s.loan.amount

lemma lastBal_append (b : ℚ) (l₁ l₂ : List Repayment) :
    lastBal b (l₁ ++ l₂) = lastBal (lastBal b l₁) l₂ := by
  induction l₁ generalizing b with
  | nil => rfl
  | cons x t ih => simpa [lastBal] using ih x.remaining_balance

lemma currentBalance_eq_lastBal (s : LoanState) :
    currentBalance s = lastBal s.loan.amount s.repayments := by
  rcases s with ⟨l, reps⟩
  induction reps using List.reverseRecOn with
  | nil => rfl
  | append_singleton t a _ =>
      simp [currentBalance, prevLedgerState, List.getLast?_concat,
        lastBal_append, lastBal]

lemma chainOk_append (p b t : ℚ) (l : List Repayment) (r : Repayment) :
    chainOk p b t (l ++ [r]) =
      (chainOk p b t l &&
        decide (r.remaining_balance =
          if p ≤ t + (l.map Repayment.amount_paid).sum
          then max 0 (lastBal b l - r.amount_paid)
          else max 0 (lastBal b l - r.amount_paid + r.interest_amount))) := by
  induction l generalizing b t with
  | nil => simp [chainOk, lastBal]
  | cons x xs ih =>
      simp [chainOk, lastBal, ih, Bool.and_assoc, add_assoc]

lemma currentBalance_append (l : Loan) (reps : List Repayment) (c : Repayment) :
    currentBalance ⟨l, reps ++ [c]⟩ = c.remaining_balance := by
  simp [currentBalance, prevLedgerState, List.getLast?_concat]

/-- C2: `calculateInterest` is pure and returns 0 when the principal
is paid off; otherwise it rounds previous balance × daily rate × day
count to two decimal places, where the day count is the ceiling of the
absolute millisecond difference in days — symmetric in the two dates,
so a back-dated target still accrues — and a same-day repayment
yields 0. -/
theorem calculateInterest_contract (bal : ℚ) (d1 d2 : CivilDate) (rate : ℚ) :
    calculateInterest bal d1 d2 rate true = 0 ∧
    calculateInterest bal d1 d2 rate false =
      round2 (bal * dailyRate rate *
        (diffDaysCeil (epochMs d1) (epochMs d2) : ℚ)) ∧
    calculateInterest bal d1 d2 rate false =
      calculateInterest bal d2 d1 rate false ∧
    calculateInterest bal d1 d1 rate false = 0 := by
  refine ⟨rfl, rfl, ?_, ?_⟩
  · have hsym : diffDaysCeil (epochMs d1) (epochMs d2) =
        diffDaysCeil (epochMs d2) (epochMs d1) := by
      unfold diffDaysCeil
      rw [show epochMs d2 - epochMs d1 = -(epochMs d1 - epochMs d2) by ring,
        Int.natAbs_neg]
    simp [calculateInterest, hsym]
  · have hz : diffDaysCeil (epochMs d1) (epochMs d1) = 0 := by
      unfold diffDaysCeil
      simp
    simp [calculateInterest, hz, round2]
    norm_num

/-- C9: `handleMarkAsFinished` always sets the status to `finished`;
with a positive current balance it appends exactly one system-tagged
closing repayment paying that balance with zero interest and zero
remaining balance; with a non-positive balance it appends nothing; and
the operation is idempotent. -/
theorem markFinished_contract (s : LoanState) (today : CivilDate) :
    (markFinished s today).loan.status = Status.finished ∧
    (0 < currentBalance s →
      (markFinished s today).repayments = s.repayments ++
        [{ repayment_date := today, amount_paid := currentBalance s,
           interest_amount := 0, remaining_balance := 0,
           payment_method := "System" }]) ∧
    (currentBalance s ≤ 0 →
      (markFinished s today).repayments = s.repayments) ∧
    (∀ d2 : CivilDate, markFinished (markFinished s today) d2 = markFinished s today) := by
  refine ⟨?_, ?_, ?_, ?_⟩
  · unfold markFinished
    split <;> rfl
  · intro h
    simp [markFinished, h]
  · intro h
    rw [markFinished, if_neg (by exact not_lt.mpr h)]
  · intro d2
    by_cases h : 0 < currentBalance s
    · have hfin : (markFinished s today).loan.status = Status.finished := by
        unfold markFinished; split <;> rfl
      have hbal : currentBalance (markFinished s today) = 0 := by
        rcases s with ⟨l, reps⟩
        simp only [markFinished, if_pos h]
        exact currentBalance_append _ _ _
      rw [markFinished, if_neg (by rw [hbal]; exact lt_irrefl 0)]
      rcases hm : markFinished s today with ⟨⟨a, b, c, d, st⟩, reps⟩
      have : st = Status.finished := by rw [hm] at hfin; exact hfin
      simp [this]
    · have hfin : (markFinished s today).loan.status = Status.finished := by
        unfold markFinished; split <;> rfl
      have hbal : currentBalance (markFinished s today) = currentBalance s := by
        simp only [markFinished, if_neg h]
        rcases s with ⟨l, reps⟩
        rfl
      rw [markFinished, if_neg (by rw [hbal]; exact h)]
      rcases hm : markFinished s today with ⟨⟨a, b, c, d, st⟩, reps⟩
      have : st = Status.finished := by rw [hm] at hfin; exact hfin
      simp [this]

/-- Witness for C9: marking a loan with balance 50 as finished appends
the concrete closing entry. -/
theorem markFinished_contract_witness :
    0 < currentBalance ⟨⟨100, 12, 12, ⟨2024, 0, 1⟩, Status.active⟩,
      [⟨⟨2024, 1, 1⟩, 50, 0, 50, "Cash"⟩]⟩ ∧
    (markFinished ⟨⟨100, 12, 12, ⟨2024, 0, 1⟩, Status.active⟩,
        [⟨⟨2024, 1, 1⟩, 50, 0, 50, "Cash"⟩]⟩ ⟨2024, 1, 2⟩).repayments =
      [⟨⟨2024, 1, 1⟩, 50, 0, 50, "Cash"⟩] ++
        [{ repayment_date := ⟨2024, 1, 2⟩
           amount_paid := currentBalance
             ⟨⟨100, 12, 12, ⟨2024, 0, 1⟩, Status.active⟩,
               [⟨⟨2024, 1, 1⟩, 50, 0, 50, "Cash"⟩]⟩
           interest_amount := 0
           remaining_balance := 0
           payment_method := "System" }] :=
  ⟨by decide,
    (markFinished_contract ⟨⟨100, 12, 12, ⟨2024, 0, 1⟩, Status.active⟩,
      [⟨⟨2024, 1, 1⟩, 50, 0, 50, "Cash"⟩]⟩ ⟨2024, 1, 2⟩).2.1 (by decide)⟩

/-- C10: the mark-as-finished button is rendered only when the current
balance is strictly between 0 and 100 and the loan is not yet
finished; consequently every system-generated closing entry created
through this path pays an amount strictly below 100. -/
theorem markFinished_guard_bound (s : LoanState) (today : CivilDate)
    (h : showMarkFinished s = true) :
    0 < currentBalance s ∧ currentBalance s < 100 ∧
    s.loan.status ≠ Status.finished ∧
    (markFinished s today).repayments = s.repayments ++
      [{ repayment_date := today, amount_paid := currentBalance s,
         interest_amount := 0, remaining_balance := 0,
         payment_method := "System" }] ∧
    (∀ r ∈ (markFinished s today).repayments,
       r ∉ s.repayments → r.payment_method = "System" ∧ r.amount_paid < 100) := by
  rw [showMarkFinished, decide_eq_true_eq] at h
  obtain ⟨h1, h2, h3⟩ := h
  have happ : (markFinished s today).repayments = s.repayments ++
      [{ repayment_date := today, amount_paid := currentBalance s,
         interest_amount := 0, remaining_balance := 0,
         payment_method := "System" }] := by
    simp [markFinished, h1]
  refine ⟨h1, h2, h3, happ, ?_⟩
  intro r hr hnot
  rw [happ] at hr
  rcases List.mem_append.mp hr with hmem | hmem
  · exact absurd hmem hnot
  · rcases List.mem_singleton.mp hmem with rfl
    exact ⟨rfl, h2⟩

/-- Witness for C10 at a concrete state with balance 50. -/
theorem markFinished_guard_bound_witness :
    showMarkFinished ⟨⟨10000, 12, 12, ⟨2024, 0, 1⟩, Status.active⟩,
      [⟨⟨2024, 1, 1⟩, 9950, 0, 50, "Cash"⟩]⟩ = true ∧
    0 < currentBalance ⟨⟨10000, 12, 12, ⟨2024, 0, 1⟩, Status.active⟩,
      [⟨⟨2024, 1, 1⟩, 9950, 0, 50, "Cash"⟩]⟩ :=
  ⟨by decide,
    (markFinished_guard_bound
      ⟨⟨10000, 12, 12, ⟨2024, 0, 1⟩, Status.active⟩,
        [⟨⟨2024, 1, 1⟩, 9950, 0, 50, "Cash"⟩]⟩
      ⟨2024, 1, 2⟩ (by decide)).1⟩

lemma validateAmount_isSome (s : LoanState) (a : ℚ) :
    (validateAmount s a).isSome = true ↔
      (a ≤ 0 ∨ currentBalance s < a) := by
  unfold validateAmount
  split_ifs with h1 h2
  · simp [h1]
  · simp [h2]
  · simp [h1, h2]

lemma validateDate_isSome (s : LoanState) (d : CivilDate) :
    (validateDate s d).isSome = true ↔
      (epochMs d < epochMs (mostRecentDate s) ∨
       epochMs (loanEndDate s.loan) < epochMs d) := by
  unfold validateDate
  split_ifs with h1 h2
  · simp [h1]
  · simp [h2]
  · simp [h1, h2]

lemma recordPayment_ok (s : LoanState) (p : PaymentInput)
    (ha : validateAmount s p.amountPaid = none)
    (hd : validateDate s p.repaymentDate = none) :
    recordPayment s p = .ok
      { state :=
          { loan := { s.loan with status :=
              (statusWritesOf s p).getLastD s.loan.status }
            repayments := s.repayments ++
              [{ repayment_date := p.repaymentDate
                 amount_paid := p.amountPaid
                 interest_amount := accruedInterest s p
                 remaining_balance := max 0 (newBalance s p)
                 payment_method := p.paymentMethod }] }
        statusWrites := statusWritesOf s p } := by
  unfold recordPayment
  rw [ha, hd]
  rfl

lemma recordPayment_ok_inv (s : LoanState) (p : PaymentInput)
    (o : PaymentOutcome) (hok : recordPayment s p = .ok o) :
    validateAmount s p.amountPaid = none ∧
    validateDate s p.repaymentDate = none ∧
    o = { state :=
            { loan := { s.loan with status :=
                (statusWritesOf s p).getLastD s.loan.status }
              repayments := s.repayments ++
                [{ repayment_date := p.repaymentDate
                   amount_paid := p.amountPaid
                   interest_amount := accruedInterest s p
                   remaining_balance := max 0 (newBalance s p)
                   payment_method := p.paymentMethod }] }
          statusWrites := statusWritesOf s p } := by
  by_cases hc : (validateAmount s p.amountPaid).isSome = true ∨
      (validateDate s p.repaymentDate).isSome = true
  · simp only [recordPayment] at hok
    rw [if_pos hc] at hok
    exact Except.noConfusion hok
  · push_neg at hc
    obtain ⟨h1, h2⟩ := hc
    have ha : validateAmount s p.amountPaid = none :=
      Option.not_isSome_iff_eq_none.mp (by simpa using h1)
    have hd : validateDate s p.repaymentDate = none :=
      Option.not_isSome_iff_eq_none.mp (by simpa using h2)
    rw [recordPayment_ok s p ha hd] at hok
    exact ⟨ha, hd, (Except.ok.injEq _ _).mp hok.symm⟩

lemma applyPayment_ok (s : LoanState) (p : PaymentInput)
    (ha : validateAmount s p.amountPaid = none)
    (hd : validateDate s p.repaymentDate = none) :
    currentBalance (applyPayment s p) = max 0 (newBalance s p) ∧
    (applyPayment s p).loan.status =
      (statusWritesOf s p).getLastD s.loan.status := by
  unfold applyPayment
  rw [recordPayment_ok s p ha hd]
  exact ⟨currentBalance_append _ _ _, rfl⟩

/-- C6: submission fails exactly when the amount is non-positive or
exceeds the current balance, or the date is before the most recent
repayment (respectively the start date) or after the loan term end;
each failure carries the field-specific error, and a failed submission
leaves the state untouched (nothing is persisted). -/
theorem validation_contract (s : LoanState) (p : PaymentInput) :
    ((∃ e, recordPayment s p = .error e) ↔
      (p.amountPaid ≤ 0 ∨ currentBalance s < p.amountPaid ∨
       epochMs p.repaymentDate < epochMs (mostRecentDate s) ∨
       epochMs (loanEndDate s.loan) < epochMs p.repaymentDate)) ∧
    (validateAmount s p.amountPaid = some AmountError.nonPositive ↔
      p.amountPaid ≤ 0) ∧
    (validateAmount s p.amountPaid = some AmountError.exceedsBalance ↔
      (0 < p.amountPaid ∧ currentBalance s < p.amountPaid)) ∧
    (validateDate s p.repaymentDate = some DateError.beforePrevious ↔
      epochMs p.repaymentDate < epochMs (mostRecentDate s)) ∧
    (validateDate s p.repaymentDate = some DateError.beyondTerm ↔
      (epochMs (mostRecentDate s) ≤ epochMs p.repaymentDate ∧
       epochMs (loanEndDate s.loan) < epochMs p.repaymentDate)) ∧
    (∀ e, recordPayment s p = .error e →
      applyPayment s p = s ∧
      e.amountError = validateAmount s p.amountPaid ∧
      e.dateError = validateDate s p.repaymentDate) := by
  refine ⟨?_, ?_, ?_, ?_, ?_, ?_⟩
  · constructor
    · rintro ⟨e, he⟩
      by_cases hc : (validateAmount s p.amountPaid).isSome = true ∨
          (validateDate s p.repaymentDate).isSome = true
      · rcases hc with hc | hc
        · rcases (validateAmount_isSome s p.amountPaid).mp hc with h | h
          · exact Or.inl h
          · exact Or.inr (Or.inl h)
        · rcases (validateDate_isSome s p.repaymentDate).mp hc with h | h
          · exact Or.inr (Or.inr (Or.inl h))
          · exact Or.inr (Or.inr (Or.inr h))
      · push_neg at hc
        obtain ⟨h1, h2⟩ := hc
        have ha : validateAmount s p.amountPaid = none :=
          Option.not_isSome_iff_eq_none.mp (by simpa using h1)
        have hd : validateDate s p.repaymentDate = none :=
          Option.not_isSome_iff_eq_none.mp (by simpa using h2)
        rw [recordPayment_ok s p ha hd] at he
        exact Except.noConfusion he
    · intro h
      have hc : (validateAmount s p.amountPaid).isSome = true ∨
          (validateDate s p.repaymentDate).isSome = true := by
        rcases h with h | h | h | h
        · exact Or.inl ((validateAmount_isSome s p.amountPaid).mpr (Or.inl h))
        · exact Or.inl ((validateAmount_isSome s p.amountPaid).mpr (Or.inr h))
        · exact Or.inr ((validateDate_isSome s p.repaymentDate).mpr (Or.inl h))
        · exact Or.inr ((validateDate_isSome s p.repaymentDate).mpr (Or.inr h))
      refine ⟨⟨validateAmount s p.amountPaid, validateDate s p.repaymentDate⟩, ?_⟩
      simp only [recordPayment]
      rw [if_pos hc]
  · unfold validateAmount
    split_ifs with h1 h2
    · simp [h1]
    · simp [h1, h2]
    · simp [h1, h2]
  · unfold validateAmount
    split_ifs with h1 h2
    · simp [not_lt.mpr h1]
    · simp [not_le.mp h1, h2]
    · simp [h2]
  · unfold validateDate
    split_ifs with h1 h2
    · simp [h1]
    · simp [h1, h2]
    · simp [h1, h2]
  · unfold validateDate
    split_ifs with h1 h2
    · simp [not_le.mpr h1]
    · simp [not_lt.mp h1, h2]
    · simp [h2]
  · intro e he
    have happly : applyPayment s p = s := by
      unfold applyPayment
      rw [he]
    by_cases hc : (validateAmount s p.amountPaid).isSome = true ∨
        (validateDate s p.repaymentDate).isSome = true
    · simp only [recordPayment] at he
      rw [if_pos hc] at he
      have : (⟨validateAmount s p.amountPaid, validateDate s p.repaymentDate⟩ :
          ValidationErrors) = e := by
        exact (Except.error.injEq _ _).mp he
      exact ⟨happly, by rw [← this], by rw [← this]⟩
    · push_neg at hc
      obtain ⟨h1, h2⟩ := hc
      have ha : validateAmount s p.amountPaid = none :=
        Option.not_isSome_iff_eq_none.mp (by simpa using h1)
      have hd : validateDate s p.repaymentDate = none :=
        Option.not_isSome_iff_eq_none.mp (by simpa using h2)
      rw [recordPayment_ok s p ha hd] at he
      exact Except.noConfusion he

/-- Witness for C6: a payment exceeding the balance is rejected with
the field-specific amount error and changes nothing. -/
theorem validation_contract_witness :
    (∃ e, recordPayment ⟨⟨100, 12, 12, ⟨2024, 0, 1⟩, Status.active⟩, []⟩
        ⟨250, ⟨2024, 0, 15⟩, "Cash"⟩ = .error e) ∧
    applyPayment ⟨⟨100, 12, 12, ⟨2024, 0, 1⟩, Status.active⟩, []⟩
        ⟨250, ⟨2024, 0, 15⟩, "Cash"⟩ =
      ⟨⟨100, 12, 12, ⟨2024, 0, 1⟩, Status.active⟩, []⟩ := by
  have h := validation_contract
    ⟨⟨100, 12, 12, ⟨2024, 0, 1⟩, Status.active⟩, []⟩
    ⟨250, ⟨2024, 0, 15⟩, "Cash"⟩
  have he := h.1.mpr (by right; left; decide)
  obtain ⟨e, he⟩ := he
  exact ⟨⟨e, he⟩, (h.2.2.2.2.2 e he).1⟩

/-- C3: on a loan with no recorded repayment, a proposal meeting the
validation preconditions succeeds: the origin state (balance =
principal, date = start date) serves as the previous ledger state and
the first repayment row is produced from it. -/
theorem first_payment_succeeds (l : Loan) (p : PaymentInput)
    (hpos : 0 < l.amount)
    (hamt : 0 < p.amountPaid) (hle : p.amountPaid ≤ l.amount)
    (hd1 : epochMs l.start_date ≤ epochMs p.repaymentDate)
    (hd2 : epochMs p.repaymentDate ≤ epochMs (loanEndDate l)) :
    ∃ o : PaymentOutcome, recordPayment ⟨l, []⟩ p = .ok o ∧
      o.state.repayments =
        [{ repayment_date := p.repaymentDate
           amount_paid := p.amountPaid
           interest_amount :=
             calculateInterest l.amount l.start_date p.repaymentDate
               l.interest_rate false
           remaining_balance :=
             max 0 (l.amount - p.amountPaid +
               calculateInterest l.amount l.start_date p.repaymentDate
                 l.interest_rate false)
           payment_method := p.paymentMethod }] := by
  have hpp : isPrincipalPaid ⟨l, []⟩ = false := by
    simp only [isPrincipalPaid, totalPaid, List.map_nil, List.sum_nil,
      decide_eq_false_iff_not]
    exact not_le.mpr hpos
  have ha : validateAmount ⟨l, []⟩ p.amountPaid = none := by
    unfold validateAmount
    rw [show currentBalance ⟨l, []⟩ = l.amount from rfl,
      if_neg (not_le.mpr hamt), if_neg (not_lt.mpr hle)]
  have hd : validateDate ⟨l, []⟩ p.repaymentDate = none := by
    unfold validateDate
    rw [show mostRecentDate ⟨l, []⟩ = l.start_date from rfl,
      show (⟨l, []⟩ : LoanState).loan = l from rfl,
      if_neg (not_lt.mpr hd1), if_neg (not_lt.mpr hd2)]
  refine ⟨_, recordPayment_ok ⟨l, []⟩ p ha hd, ?_⟩
  have hint : accruedInterest ⟨l, []⟩ p =
      calculateInterest l.amount l.start_date p.repaymentDate
        l.interest_rate false := by
    unfold accruedInterest
    rw [hpp]
    rfl
  have hnew : newBalance ⟨l, []⟩ p =
      l.amount - p.amountPaid +
        calculateInterest l.amount l.start_date p.repaymentDate
          l.interest_rate false := by
    unfold newBalance
    rw [hpp, hint]
    rfl
  simp [hint, hnew]

/-- C3 witness: Scenario A (principal 10000, 12%, payment 2000 thirty
days after the start) succeeds from an empty history. -/
theorem first_payment_succeeds_witness :
    ∃ o : PaymentOutcome,
      recordPayment ⟨⟨10000, 12, 12, ⟨2024, 0, 1⟩, Status.active⟩, []⟩
        ⟨2000, ⟨2024, 0, 31⟩, "Cash"⟩ = .ok o ∧
      o.state.repayments =
        [{ repayment_date := ⟨2024, 0, 31⟩
           amount_paid := 2000
           interest_amount :=
             calculateInterest 10000 ⟨2024, 0, 1⟩ ⟨2024, 0, 31⟩ 12 false
           remaining_balance :=
             max 0 (10000 - 2000 +
               calculateInterest 10000 ⟨2024, 0, 1⟩ ⟨2024, 0, 31⟩ 12 false)
           payment_method := "Cash" }] :=
  first_payment_succeeds ⟨10000, 12, 12, ⟨2024, 0, 1⟩, Status.active⟩
    ⟨2000, ⟨2024, 0, 31⟩, "Cash"⟩ (by decide) (by decide) (by decide)
    (by decide) (by decide)

/-- C4 counterexample: on a fresh loan of 10000 at 12%, paying exactly
the current balance (10000) thirty days in leaves the accrued interest
98.63 as the stored balance and the status at `principal paid`, not
`finished`. -/
theorem payment_exact_balance_counterexample :
    (⟨10000, ⟨2024, 0, 31⟩, "Cash"⟩ : PaymentInput).amountPaid =
      currentBalance ⟨⟨10000, 12, 12, ⟨2024, 0, 1⟩, Status.active⟩, []⟩ ∧
    currentBalance (applyPayment
        ⟨⟨10000, 12, 12, ⟨2024, 0, 1⟩, Status.active⟩, []⟩
        ⟨10000, ⟨2024, 0, 31⟩, "Cash"⟩) = 9863/100 ∧
    (applyPayment ⟨⟨10000, 12, 12, ⟨2024, 0, 1⟩, Status.active⟩, []⟩
        ⟨10000, ⟨2024, 0, 31⟩, "Cash"⟩).loan.status ≠ Status.finished := by
  have hpp : isPrincipalPaid
      ⟨⟨10000, 12, 12, ⟨2024, 0, 1⟩, Status.active⟩, []⟩ = false := by
    with_unfolding_all decide
  have ha : validateAmount
      ⟨⟨10000, 12, 12, ⟨2024, 0, 1⟩, Status.active⟩, []⟩ (10000 : ℚ) = none := by
    unfold validateAmount
    rw [show currentBalance ⟨⟨10000, 12, 12, ⟨2024, 0, 1⟩, Status.active⟩, []⟩ =
      (10000 : ℚ) from rfl, if_neg (by norm_num), if_neg (by norm_num)]
  have hd : validateDate
      ⟨⟨10000, 12, 12, ⟨2024, 0, 1⟩, Status.active⟩, []⟩ ⟨2024, 0, 31⟩ = none := by
    unfold validateDate
    rw [if_neg (by decide), if_neg (by decide)]
  have hint : accruedInterest ⟨⟨10000, 12, 12, ⟨2024, 0, 1⟩, Status.active⟩, []⟩
      ⟨10000, ⟨2024, 0, 31⟩, "Cash"⟩ = 9863/100 := by
    unfold accruedInterest calculateInterest
    rw [if_neg (by rw [hpp]; exact Bool.false_ne_true)]
    rw [show diffDaysCeil
      (epochMs (mostRecentDate ⟨⟨10000, 12, 12, ⟨2024, 0, 1⟩, Status.active⟩, []⟩))
      (epochMs (⟨10000, ⟨2024, 0, 31⟩, "Cash"⟩ : PaymentInput).repaymentDate) = 30
      from by decide]
    rw [show currentBalance ⟨⟨10000, 12, 12, ⟨2024, 0, 1⟩, Status.active⟩, []⟩ =
        (10000 : ℚ) from rfl,
      show (⟨⟨10000, 12, 12, ⟨2024, 0, 1⟩, Status.active⟩, []⟩ :
        LoanState).loan.interest_rate = (12 : ℚ) from rfl]
    norm_num [round2, dailyRate]
  have hnb : newBalance ⟨⟨10000, 12, 12, ⟨2024, 0, 1⟩, Status.active⟩, []⟩
      ⟨10000, ⟨2024, 0, 31⟩, "Cash"⟩ = 9863/100 := by
    unfold newBalance
    rw [if_neg (by rw [hpp]; exact Bool.false_ne_true), hint,
      show currentBalance ⟨⟨10000, 12, 12, ⟨2024, 0, 1⟩, Status.active⟩, []⟩ =
        (10000 : ℚ) from rfl]
    norm_num
  have hW : statusWritesOf ⟨⟨10000, 12, 12, ⟨2024, 0, 1⟩, Status.active⟩, []⟩
      ⟨10000, ⟨2024, 0, 31⟩, "Cash"⟩ = [Status.principalPaid] := by
    unfold statusWritesOf
    rw [hnb, if_pos ⟨hpp, by norm_num [totalPaid]⟩, if_neg (by norm_num)]
    rfl
  refine ⟨by decide, ?_, ?_⟩
  · rw [(applyPayment_ok ⟨⟨10000, 12, 12, ⟨2024, 0, 1⟩, Status.active⟩, []⟩
      ⟨10000, ⟨2024, 0, 31⟩, "Cash"⟩ ha hd).1, hnb]
    norm_num
  · rw [(applyPayment_ok ⟨⟨10000, 12, 12, ⟨2024, 0, 1⟩, Status.active⟩, []⟩
      ⟨10000, ⟨2024, 0, 31⟩, "Cash"⟩ ha hd).2, hW]
    decide

/-- C4 amended: a payment equal to the current balance zeroes the
stored balance and finishes the loan exactly when the interval accrues
no interest (same-day payment, zero rate, or principal already paid
off); the `finished` write is issued then. -/
theorem payment_exact_balance_amended (s : LoanState) (p : PaymentInput)
    (o : PaymentOutcome) (hok : recordPayment s p = .ok o)
    (hamt : p.amountPaid = currentBalance s)
    (hint : accruedInterest s p = 0) :
    o.state.loan.status = Status.finished ∧
    currentBalance o.state = 0 ∧
    Status.finished ∈ o.statusWrites := by
  obtain ⟨ha, hd, ho⟩ := recordPayment_ok_inv s p o hok
  subst ho
  have hnb : newBalance s p = 0 := by
    unfold newBalance
    split_ifs with h
    · rw [hamt]; ring
    · rw [hamt, hint]; ring
  have hw : statusWritesOf s p =
      (if isPrincipalPaid s = false ∧
          s.loan.amount ≤ totalPaid s + p.amountPaid
        then [Status.principalPaid] else []) ++ [Status.finished] := by
    unfold statusWritesOf
    rw [hnb, if_pos (le_refl (0 : ℚ))]
  refine ⟨?_, ?_, ?_⟩
  · simp only [hw, List.getLastD_concat]
  · rw [show currentBalance
        ⟨{ s.loan with status := (statusWritesOf s p).getLastD s.loan.status },
          s.repayments ++
            [{ repayment_date := p.repaymentDate
               amount_paid := p.amountPaid
               interest_amount := accruedInterest s p
               remaining_balance := max 0 (newBalance s p)
               payment_method := p.paymentMethod }]⟩ =
        max 0 (newBalance s p) from currentBalance_append _ _ _]
    rw [hnb]
    simp
  · rw [hw]
    exact List.mem_append_right _ (List.mem_singleton.mpr rfl)

/-- C4 witness: a same-day payment of the full balance on a fresh loan
of 100 accrues no interest and finishes the loan. -/
theorem payment_exact_balance_amended_witness :
    accruedInterest ⟨⟨100, 12, 12, ⟨2024, 0, 1⟩, Status.active⟩, []⟩
      ⟨100, ⟨2024, 0, 1⟩, "Cash"⟩ = 0 ∧
    (applyPayment ⟨⟨100, 12, 12, ⟨2024, 0, 1⟩, Status.active⟩, []⟩
      ⟨100, ⟨2024, 0, 1⟩, "Cash"⟩).loan.status = Status.finished := by
  have ha : validateAmount ⟨⟨100, 12, 12, ⟨2024, 0, 1⟩, Status.active⟩, []⟩
      (100 : ℚ) = none := by
    unfold validateAmount
    rw [show currentBalance ⟨⟨100, 12, 12, ⟨2024, 0, 1⟩, Status.active⟩, []⟩ =
      (100 : ℚ) from rfl, if_neg (by norm_num), if_neg (by norm_num)]
  have hd : validateDate ⟨⟨100, 12, 12, ⟨2024, 0, 1⟩, Status.active⟩, []⟩
      ⟨2024, 0, 1⟩ = none := by
    unfold validateDate
    rw [if_neg (by decide), if_neg (by decide)]
  have hpp : isPrincipalPaid
      ⟨⟨100, 12, 12, ⟨2024, 0, 1⟩, Status.active⟩, []⟩ = false := by
    with_unfolding_all decide
  have hint : accruedInterest ⟨⟨100, 12, 12, ⟨2024, 0, 1⟩, Status.active⟩, []⟩
      ⟨100, ⟨2024, 0, 1⟩, "Cash"⟩ = 0 := by
    unfold accruedInterest calculateInterest
    rw [if_neg (by rw [hpp]; exact Bool.false_ne_true)]
    rw [show diffDaysCeil
      (epochMs (mostRecentDate ⟨⟨100, 12, 12, ⟨2024, 0, 1⟩, Status.active⟩, []⟩))
      (epochMs (⟨100, ⟨2024, 0, 1⟩, "Cash"⟩ : PaymentInput).repaymentDate) = 0
      from by decide]
    rw [show currentBalance ⟨⟨100, 12, 12, ⟨2024, 0, 1⟩, Status.active⟩, []⟩ =
        (100 : ℚ) from rfl,
      show (⟨⟨100, 12, 12, ⟨2024, 0, 1⟩, Status.active⟩, []⟩ :
        LoanState).loan.interest_rate = (12 : ℚ) from rfl]
    norm_num [round2, dailyRate]
  have hok := recordPayment_ok ⟨⟨100, 12, 12, ⟨2024, 0, 1⟩, Status.active⟩, []⟩
    ⟨100, ⟨2024, 0, 1⟩, "Cash"⟩ ha hd
  have h := payment_exact_balance_amended
    ⟨⟨100, 12, 12, ⟨2024, 0, 1⟩, Status.active⟩, []⟩
    ⟨100, ⟨2024, 0, 1⟩, "Cash"⟩ _ hok rfl hint
  refine ⟨hint, ?_⟩
  unfold applyPayment
  rw [hok]
  exact h.1

/-- C5 counterexample: for a loan whose recorded payments already
cover the principal (principalPaidOff = true), the spec's
projectInterest demands 0, but the loan-details display computes a
nonzero projection from the residual balance. -/
theorem projection_paidoff_counterexample :
    isPrincipalPaid ⟨⟨1000, 10, 12, ⟨2024, 0, 1⟩, Status.principalPaid⟩,
      [⟨⟨2024, 1, 1⟩, 1000, 8, 8, "Cash"⟩]⟩ = true ∧
    projectInterestSpec 8 10 30 true = 0 ∧
    fetchProjectedInterest ⟨⟨1000, 10, 12, ⟨2024, 0, 1⟩, Status.principalPaid⟩,
      [⟨⟨2024, 1, 1⟩, 1000, 8, 8, "Cash"⟩]⟩ ≠
      projectInterestSpec 8 10 30 true := by
  refine ⟨by with_unfolding_all decide, by decide, ?_⟩
  show round2 ((8 : ℚ) * dailyRate 10 * 30) ≠ projectInterestSpec 8 10 30 true
  norm_num [round2, dailyRate, projectInterestSpec]

/-- C5 amended: the loan-details projection always equals the rounded
balance × daily-rate × 30 product — the exact amount the ledger engine
would accrue over any 30-day interval on that balance — and the
analytics per-loan projection is the same product left unrounded;
neither has a principal-paid-off branch. -/
theorem projection_formula_amended (s : LoanState) (r : Repayment)
    (d1 d2 : CivilDate) (hlast : s.repayments.getLast? = some r)
    (hdays : diffDaysCeil (epochMs d1) (epochMs d2) = 30) :
    fetchProjectedInterest s =
      calculateInterest r.remaining_balance d1 d2 s.loan.interest_rate false ∧
    (metricsStep (0, 0) s).1 =
      currentBalance s * dailyRate s.loan.interest_rate * 30 := by
  constructor
  · unfold fetchProjectedInterest calculateInterest
    rw [hlast, hdays]
    norm_num
  · show (0 : ℚ) + currentBalance s * dailyRate s.loan.interest_rate * 30 =
      currentBalance s * dailyRate s.loan.interest_rate * 30
    rw [zero_add]

/-- C5 witness: the details projection on a balance of 1000 at 10%
matches a 30-day ledger accrual. -/
theorem projection_formula_amended_witness :
    fetchProjectedInterest ⟨⟨10000, 10, 12, ⟨2024, 0, 1⟩, Status.active⟩,
        [⟨⟨2024, 1, 1⟩, 9000, 0, 1000, "Cash"⟩]⟩ =
      calculateInterest 1000 ⟨2024, 0, 1⟩ ⟨2024, 0, 31⟩ 10 false :=
  (projection_formula_amended
    ⟨⟨10000, 10, 12, ⟨2024, 0, 1⟩, Status.active⟩,
      [⟨⟨2024, 1, 1⟩, 9000, 0, 1000, "Cash"⟩]⟩
    ⟨⟨2024, 1, 1⟩, 9000, 0, 1000, "Cash"⟩
    ⟨2024, 0, 1⟩ ⟨2024, 0, 31⟩ (by decide) (by decide)).1

lemma metrics_foldl (l : List LoanState) (a b : ℚ) :
    l.foldl metricsStep (a, b) =
      (a + (l.map fun s =>
          currentBalance s * dailyRate s.loan.interest_rate * 30).sum,
        b + (l.map currentBalance).sum) := by
  induction l generalizing a b with
  | nil => simp
  | cons x t ih =>
      simp only [List.foldl_cons, metricsStep, ih, List.map_cons,
        List.sum_cons, Prod.mk.injEq]
      constructor <;> ring

/-- C8 counterexample: with one active loan of principal 100 whose
latest repayment left a balance of 50, the dashboard reports an
outstanding amount of 150 (balances plus principals), not the 50 the
claim describes. -/
theorem metrics_outstanding_counterexample :
    specOutstandingTotal [⟨⟨100, 0, 12, ⟨2024, 0, 1⟩, Status.active⟩,
      [⟨⟨2024, 1, 1⟩, 50, 0, 50, "Cash"⟩]⟩] = 50 ∧
    (fetchLoanMetrics [⟨⟨100, 0, 12, ⟨2024, 0, 1⟩, Status.active⟩,
      [⟨⟨2024, 1, 1⟩, 50, 0, 50, "Cash"⟩]⟩]).outstandingAmount = 150 ∧
    (fetchLoanMetrics [⟨⟨100, 0, 12, ⟨2024, 0, 1⟩, Status.active⟩,
      [⟨⟨2024, 1, 1⟩, 50, 0, 50, "Cash"⟩]⟩]).outstandingAmount ≠
      specOutstandingTotal [⟨⟨100, 0, 12, ⟨2024, 0, 1⟩, Status.active⟩,
        [⟨⟨2024, 1, 1⟩, 50, 0, 50, "Cash"⟩]⟩] := by
  refine ⟨by with_unfolding_all decide, by with_unfolding_all decide,
    by with_unfolding_all decide⟩

/-- C8 amended: over the loans with status `active` the dashboard
reports their count, the summed principal, a projected-interest total
summing the unrounded per-loan 30-day projections, and an outstanding
amount equal to the summed current balances plus the summed
principal. -/
theorem fetchLoanMetrics_amended (allLoans : List LoanState) :
    (fetchLoanMetrics allLoans).activeLoans =
      (allLoans.filter fun s => decide (s.loan.status = Status.active)).length ∧
    (fetchLoanMetrics allLoans).totalPrincipal =
      ((allLoans.filter fun s => decide (s.loan.status = Status.active)).map
        fun s => s.loan.amount).sum ∧
    (fetchLoanMetrics allLoans).interestToBePaid =
      ((allLoans.filter fun s => decide (s.loan.status = Status.active)).map
        fun s => currentBalance s * dailyRate s.loan.interest_rate * 30).sum ∧
    (fetchLoanMetrics allLoans).outstandingAmount =
      specOutstandingTotal allLoans +
        ((allLoans.filter fun s => decide (s.loan.status = Status.active)).map
          fun s => s.loan.amount).sum := by
  simp only [fetchLoanMetrics, specOutstandingTotal, metrics_foldl, zero_add]
  refine ⟨?_, ?_, ?_, ?_⟩ <;> trivial

/-- C1: the balance-chaining recurrence holds of an empty repayment
history and is preserved by every successful payment submission: the
appended row stores `max 0 (prev − paid)` when the principal was
covered before the event and `max 0 (prev − paid + interest)`
otherwise, `prev` being the last stored balance or the original
principal. -/
theorem balance_chain_invariant :
    (∀ l : Loan, LedgerInv ⟨l, []⟩ = true) ∧
    (∀ (s : LoanState) (p : PaymentInput) (o : PaymentOutcome),
      LedgerInv s = true → recordPayment s p = .ok o →
      LedgerInv o.state = true) := by
  constructor
  · intro l
    rfl
  · intro s p o hinv hok
    obtain ⟨ha, hd, ho⟩ := recordPayment_ok_inv s p o hok
    subst ho
    show chainOk s.loan.amount s.loan.amount 0 (s.repayments ++
      [{ repayment_date := p.repaymentDate
         amount_paid := p.amountPaid
         interest_amount := accruedInterest s p
         remaining_balance := max 0 (newBalance s p)
         payment_method := p.paymentMethod }]) = true
    rw [chainOk_append, Bool.and_eq_true]
    refine ⟨hinv, ?_⟩
    rw [decide_eq_true_eq]
    show max 0 (newBalance s p) =
      if s.loan.amount ≤ 0 + (s.repayments.map Repayment.amount_paid).sum
      then max 0 (lastBal s.loan.amount s.repayments - p.amountPaid)
      else max 0 (lastBal s.loan.amount s.repayments - p.amountPaid +
        accruedInterest s p)
    rw [zero_add, ← currentBalance_eq_lastBal s,
      show (s.repayments.map Repayment.amount_paid).sum = totalPaid s from rfl]
    by_cases hpo : s.loan.amount ≤ totalPaid s
    · rw [if_pos hpo]
      unfold newBalance
      rw [if_pos (show isPrincipalPaid s = true from decide_eq_true hpo)]
    · rw [if_neg hpo]
      unfold newBalance
      rw [if_neg (show ¬isPrincipalPaid s = true from by
        simp only [isPrincipalPaid, decide_eq_true_eq]
        exact hpo)]

/-- Witness for C1: the invariant holds after a first concrete
payment. -/
theorem balance_chain_invariant_witness :
    LedgerInv (applyPayment ⟨⟨100, 12, 12, ⟨2024, 0, 1⟩, Status.active⟩, []⟩
      ⟨40, ⟨2024, 0, 5⟩, "Cash"⟩) = true := by
  have ha : validateAmount ⟨⟨100, 12, 12, ⟨2024, 0, 1⟩, Status.active⟩, []⟩
      (40 : ℚ) = none := by
    unfold validateAmount
    rw [show currentBalance ⟨⟨100, 12, 12, ⟨2024, 0, 1⟩, Status.active⟩, []⟩ =
      (100 : ℚ) from rfl, if_neg (by norm_num), if_neg (by norm_num)]
  have hd : validateDate ⟨⟨100, 12, 12, ⟨2024, 0, 1⟩, Status.active⟩, []⟩
      ⟨2024, 0, 5⟩ = none := by
    unfold validateDate
    rw [if_neg (by decide), if_neg (by decide)]
  have hok := recordPayment_ok ⟨⟨100, 12, 12, ⟨2024, 0, 1⟩, Status.active⟩, []⟩
    ⟨40, ⟨2024, 0, 5⟩, "Cash"⟩ ha hd
  have h := balance_chain_invariant.2
    ⟨⟨100, 12, 12, ⟨2024, 0, 1⟩, Status.active⟩, []⟩
    ⟨40, ⟨2024, 0, 5⟩, "Cash"⟩ _ rfl hok
  unfold applyPayment
  rw [hok]
  exact h

lemma rank_le_two (st : Status) : st.rank ≤ 2 := by
  cases st <;> decide

lemma markFinished_sets_finished (s : LoanState) (today : CivilDate) :
    (markFinished s today).loan.status = Status.finished := by
  unfold markFinished
  split <;> rfl

/-- C7: `finished` loans offer neither mutating action; the modal-open
status sync, payment submission (when offered) and mark-as-finished
all move the status only forward along
`active → principal_paid → finished`; and a successful submission
writes `principal paid` exactly when this payment completes the
principal and lands on `finished` exactly when the new balance
is ≤ 0. -/
theorem status_state_machine (s : LoanState) (p : PaymentInput)
    (today : CivilDate) (o : PaymentOutcome) :
    (s.loan.status = Status.finished →
      canRecordPayment s = false ∧ showMarkFinished s = false) ∧
    Status.rank s.loan.status ≤
      Status.rank (openModalStatusUpdate s).loan.status ∧
    (canRecordPayment s = true →
      Status.rank s.loan.status ≤ Status.rank (applyPayment s p).loan.status) ∧
    Status.rank s.loan.status ≤ Status.rank (markFinished s today).loan.status ∧
    (recordPayment s p = .ok o →
      (Status.finished ∈ o.statusWrites ↔ newBalance s p ≤ 0) ∧
      (s.loan.status ≠ Status.finished →
        (o.state.loan.status = Status.finished ↔ newBalance s p ≤ 0)) ∧
      (s.loan.status = Status.active → StatusInv s →
        (Status.principalPaid ∈ o.statusWrites ↔
          s.loan.amount ≤ totalPaid s + p.amountPaid))) := by
  refine ⟨?_, ?_, ?_, ?_, ?_⟩
  · intro h
    constructor
    · simp [canRecordPayment, h]
    · simp [showMarkFinished, h]
  · unfold openModalStatusUpdate
    split_ifs with h
    · rw [h.2]
      exact Nat.zero_le _
    · exact le_refl _
  · intro hcan
    have hne : s.loan.status ≠ Status.finished := by
      simpa [canRecordPayment] using hcan
    unfold applyPayment
    cases hrec : recordPayment s p with
    | error e => exact le_refl _
    | ok o2 =>
        obtain ⟨ha, hd, ho2⟩ := recordPayment_ok_inv s p o2 hrec
        subst ho2
        show Status.rank s.loan.status ≤
          Status.rank ((statusWritesOf s p).getLastD s.loan.status)
        unfold statusWritesOf
        by_cases h2 : newBalance s p ≤ 0
        · rw [if_pos h2, List.getLastD_concat]
          exact rank_le_two _
        · rw [if_neg h2]
          split_ifs with h1
          · show Status.rank s.loan.status ≤
              Status.rank (([Status.principalPaid] ++ []).getLastD s.loan.status)
            cases hst : s.loan.status with
            | active => decide
            | principalPaid => decide
            | finished => exact absurd hst hne
          · exact le_refl _
  · rw [markFinished_sets_finished]
    exact rank_le_two _
  · intro hok
    obtain ⟨ha, hd, ho⟩ := recordPayment_ok_inv s p o hok
    subst ho
    refine ⟨?_, ?_, ?_⟩
    · show Status.finished ∈ statusWritesOf s p ↔ newBalance s p ≤ 0
      unfold statusWritesOf
      by_cases h2 : newBalance s p ≤ 0
      · rw [if_pos h2]
        simp [h2]
      · rw [if_neg h2]
        split_ifs with h1 <;> simp [h2]
    · intro hne
      show (statusWritesOf s p).getLastD s.loan.status = Status.finished ↔
        newBalance s p ≤ 0
      unfold statusWritesOf
      by_cases h2 : newBalance s p ≤ 0
      · rw [if_pos h2, List.getLastD_concat]
        simp [h2]
      · rw [if_neg h2]
        split_ifs with h1
        · simp [h2, List.getLastD]
        · simp [h2, List.getLastD, hne]
    · intro hact hinv
      have hlt : totalPaid s < s.loan.amount := hinv hact
      have hpp : isPrincipalPaid s = false := by
        simp only [isPrincipalPaid, decide_eq_false_iff_not]
        exact not_le.mpr hlt
      show Status.principalPaid ∈ statusWritesOf s p ↔
        s.loan.amount ≤ totalPaid s + p.amountPaid
      unfold statusWritesOf
      by_cases hc : s.loan.amount ≤ totalPaid s + p.amountPaid
      · rw [if_pos ⟨hpp, hc⟩]
        split_ifs with h2 <;> simp [hc]
      · rw [if_neg (by rintro ⟨h1, h2⟩; exact hc h2)]
        split_ifs with h2 <;> simp [hc]

/-- Witness for C7: a concrete payment that completes the principal on
an active loan issues the `principal paid` write. -/
theorem status_state_machine_witness :
    Status.principalPaid ∈
      statusWritesOf ⟨⟨100, 12, 12, ⟨2024, 0, 1⟩, Status.active⟩, []⟩
        ⟨100, ⟨2024, 0, 5⟩, "Cash"⟩ := by
  have ha : validateAmount ⟨⟨100, 12, 12, ⟨2024, 0, 1⟩, Status.active⟩, []⟩
      (100 : ℚ) = none := by
    unfold validateAmount
    rw [show currentBalance ⟨⟨100, 12, 12, ⟨2024, 0, 1⟩, Status.active⟩, []⟩ =
      (100 : ℚ) from rfl, if_neg (by norm_num), if_neg (by norm_num)]
  have hd : validateDate ⟨⟨100, 12, 12, ⟨2024, 0, 1⟩, Status.active⟩, []⟩
      ⟨2024, 0, 5⟩ = none := by
    unfold validateDate
    rw [if_neg (by decide), if_neg (by decide)]
  have hok := recordPayment_ok ⟨⟨100, 12, 12, ⟨2024, 0, 1⟩, Status.active⟩, []⟩
    ⟨100, ⟨2024, 0, 5⟩, "Cash"⟩ ha hd
  have h := (status_state_machine
    ⟨⟨100, 12, 12, ⟨2024, 0, 1⟩, Status.active⟩, []⟩
    ⟨100, ⟨2024, 0, 5⟩, "Cash"⟩ ⟨2024, 0, 5⟩ _).2.2.2.2 hok
  exact (h.2.2 rfl (by intro _; norm_num [totalPaid])).mpr
    (by norm_num [totalPaid])

end LoanMgmt
